import Mathlib

/-!
Shallow embedding of the two core subsystems of the Serial-via-Ethernet
repository:

* `SerialProxy` — the RFC2217 frame codec of `pi/serial_proxy.py`
  (`RFC2217Proxy.handle_rfc2217`, `RFC2217Proxy._handle_com_port_option`,
  `RFC2217Proxy._send_com_port_option`), modelled as pure functions over
  byte lists (`List Nat`, every byte `< 256`), with the proxy's side
  effects (serial-setting writes, log lines, frames sent to the client)
  reified as an explicit serial state plus a list of `Action`s.

* `PortalV2` — the slot supervisor of `pi/portal_v2.py`
  (`Portal.start`, `Portal.stop`, the health reap in `Portal.get_devices`),
  with the environment probes (`_is_process_alive`, `_is_port_listening`,
  `_start_proxy`) passed in as explicit oracle values.
-/

namespace SerialProxy

/-- Telnet Interpret As Command byte (`IAC = 255` in `serial_proxy.py`). -/
def IAC : Nat := 255

def DONT : Nat := 254

def DO : Nat := 253

def WONT : Nat := 252

def WILL : Nat := 251

def SB : Nat := 250

def SE : Nat := 240

def COM_PORT_OPTION : Nat := 44

def SET_BAUDRATE : Nat := 1

def SET_DATASIZE : Nat := 2

def SET_PARITY : Nat := 3

def SET_STOPSIZE : Nat := 4

def SET_CONTROL : Nat := 5

def SET_LINESTATE_MASK : Nat := 10

def SET_MODEMSTATE_MASK : Nat := 11

/-- The three stop-bit settings pyserial accepts (the source assigns the
Python values `1`, `2` and `1.5` to `self.serial.stopbits`). -/
inductive StopBits
  | one
  | onePointFive
  | two
  deriving DecidableEq

/-- Python `int()` truncation applied to the stored stop-bits value, as in
`int(self.serial.stopbits)` at line 272 of `serial_proxy.py` (`int(1.5) = 1`). -/
def StopBits.toIntTrunc : StopBits → Nat
  | .one => 1
  | .onePointFive => 1
  | .two => 2

/-- The dictionary `stopbits_map = {1: 1, 2: 2, 3: 1.5}` with default `1`
(`stopbits_map.get(data[0], 1)`). -/
def stopbits_map (b : Nat) : StopBits :=
  if b = 1 then .one else if b = 2 then .two else if b = 3 then .onePointFive else .one

/-- The dictionary `stopbits_rmap = {1: 1, 1.5: 3, 2: 2}` with default `1`,
looked up at an integer key (so the `1.5 : 3` entry can never match). -/
def stopbits_rmap (n : Nat) : Nat :=
  if n = 1 then 1 else if n = 2 then 2 else 1

/-- The dictionary `parity_map = {1: N, 2: O, 3: E, 4: M, 5: S}` with default `N`. -/
def parity_map (b : Nat) : Char :=
  if b = 1 then 'N' else if b = 2 then 'O' else if b = 3 then 'E'
  else if b = 4 then 'M' else if b = 5 then 'S' else 'N'

/-- The dictionary `parity_rmap = {N: 1, O: 2, E: 3, M: 4, S: 5}` with default `1`. -/
def parity_rmap (c : Char) : Nat :=
  if c = 'N' then 1 else if c = 'O' then 2 else if c = 'E' then 3
  else if c = 'M' then 4 else if c = 'S' then 5 else 1

/-- The mutable configuration of the open serial port (`self.serial`). -/
structure SerialState where
  baudrate : Nat
  bytesize : Nat
  parity : Char
  stopbits : StopBits
  dtr : Bool
  rts : Bool
  deriving DecidableEq

/-- A `self.logger.log(...)` line recording a serial-setting change, reified
as a value (the timestamps and exact message text are irrelevant to the claims). -/
inductive Event
  | baudrateChanged (b : Nat)
  | datasizeChanged (n : Nat)
  | parityChanged (c : Char)
  | stopbitsChanged (s : StopBits)
  | dtrSet (value : Bool)
  | rtsSet (value : Bool)
  deriving DecidableEq

/-- An observable side effect of the codec: a Telnet negotiation reply
(`_send_telnet`), a COM-Port-Option reply frame (`_send_com_port_option`),
a logged control event, or the error log line of the `except` clause of
`_handle_com_port_option`. -/
inductive Action
  | sendTelnet (cmd opt : Nat)
  | sendComPortOption (subcmd : Nat) (payload : List Nat)
  | logEvent (e : Event)
  | logError
  deriving DecidableEq

/-- Python `int.from_bytes(bs, 'big')`. -/
def fromBytesBE (bs : List Nat) : Nat :=
  bs.foldl (fun acc b => acc * 256 + b) 0

/-- Python `n.to_bytes(4, 'big')` for `n < 2 ^ 32`. -/
def toBytes4 (n : Nat) : List Nat :=
  [n / 2 ^ 24 % 256, n / 2 ^ 16 % 256, n / 2 ^ 8 % 256, n % 256]

/-- `RFC2217Proxy._handle_com_port_option(subcmd, data)`: applies the
requested serial setting and returns the updated serial state together with
the emitted log events and reply frames, mirroring the `if/elif` chain of
lines 237-311 of `serial_proxy.py`.  The only statement in that chain that
can raise is `self.serial.baudrate.to_bytes(4, 'big')` (for a baudrate
`≥ 2 ^ 32`), which the enclosing `try/except` turns into a log line and a
missing reply; this is the `logError` branch. -/
def handle_com_port_option (st : SerialState) (subcmd : Nat) (data : List Nat) :
    SerialState × List Action :=
  let resp_cmd := subcmd + 100
  if subcmd = SET_BAUDRATE ∧ 4 ≤ data.length then
    let baudrate := fromBytesBE (data.take 4)
    let st' := if 0 < baudrate then { st with baudrate := baudrate } else st
    (st', (if 0 < baudrate then [Action.logEvent (.baudrateChanged baudrate)] else []) ++
      (if st'.baudrate < 2 ^ 32 then
        [Action.sendComPortOption resp_cmd (toBytes4 st'.baudrate)]
      else [Action.logError]))
  else if subcmd = SET_DATASIZE ∧ 1 ≤ data.length then
    let datasize := data.headI
    let st' := if 5 ≤ datasize ∧ datasize ≤ 8 then { st with bytesize := datasize } else st
    (st', (if 5 ≤ datasize ∧ datasize ≤ 8 then
        [Action.logEvent (.datasizeChanged datasize)] else []) ++
      [Action.sendComPortOption resp_cmd [st'.bytesize]])
  else if subcmd = SET_PARITY ∧ 1 ≤ data.length then
    let parity := parity_map data.headI
    let st' := { st with parity := parity }
    (st', [Action.logEvent (.parityChanged parity),
      Action.sendComPortOption resp_cmd [parity_rmap st'.parity]])
  else if subcmd = SET_STOPSIZE ∧ 1 ≤ data.length then
    let stopbits := stopbits_map data.headI
    let st' := { st with stopbits := stopbits }
    (st', [Action.logEvent (.stopbitsChanged stopbits),
      Action.sendComPortOption resp_cmd [stopbits_rmap st'.stopbits.toIntTrunc]])
  else if subcmd = SET_CONTROL ∧ 1 ≤ data.length then
    let control := data.headI
    if control = 8 then
      ({ st with dtr := true },
        [Action.logEvent (.dtrSet true), Action.sendComPortOption resp_cmd [8]])
    else if control = 9 then
      ({ st with dtr := false },
        [Action.logEvent (.dtrSet false), Action.sendComPortOption resp_cmd [9]])
    else if control = 11 then
      ({ st with rts := true },
        [Action.logEvent (.rtsSet true), Action.sendComPortOption resp_cmd [11]])
    else if control = 12 then
      ({ st with rts := false },
        [Action.logEvent (.rtsSet false), Action.sendComPortOption resp_cmd [12]])
    else
      (st, [Action.sendComPortOption resp_cmd [control]])
  else if subcmd = SET_LINESTATE_MASK then
    (st, [Action.sendComPortOption resp_cmd (if data.isEmpty then [0] else data)])
  else if subcmd = SET_MODEMSTATE_MASK then
    (st, [Action.sendComPortOption resp_cmd (if data.isEmpty then [0] else data)])
  else
    (st, [Action.sendComPortOption resp_cmd (if data.isEmpty then [0] else data)])

/-- Bytes put on the wire by `RFC2217Proxy._send_com_port_option(subcmd, data)`:
`msg = bytes([IAC, SB, COM_PORT_OPTION, subcmd]) + data + bytes([IAC, SE])`. -/
def send_com_port_option_msg (subcmd : Nat) (payload : List Nat) : List Nat :=
  [IAC, SB, COM_PORT_OPTION, subcmd] ++ payload ++ [IAC, SE]

/-- Python `data.find(bytes([IAC, SE]), j)` with the result expressed as an
offset from `j`: `some r` means the first occurrence of the two-byte pattern
`IAC SE` at an index `≥ j` is at index `j + r`; `none` corresponds to the
Python return value `-1`. -/
def find_iac_se (data : List Nat) (j : Nat) : Option Nat :=
  if _h : j + 1 < data.length then
    if data.getD j 0 = IAC ∧ data.getD (j + 1) 0 = SE then some 0
    else (find_iac_se data (j + 1)).map (· + 1)
  else none
termination_by data.length - j

/-- The `while i < len(data)` loop of `RFC2217Proxy.handle_rfc2217`
(lines 193-233 of `serial_proxy.py`), with the scan position `i`, the
application-data accumulator `output` and the accumulated side effects
made explicit. -/
def handle_rfc2217_loop (st : SerialState) (data : List Nat) (i : Nat)
    (output : List Nat) (acts : List Action) : SerialState × List Nat × List Action :=
  if _hi : i < data.length then
    let b := data.getD i 0
    if b = IAC ∧ i + 1 < data.length then
      let cmd := data.getD (i + 1) 0
      if cmd = IAC then
        handle_rfc2217_loop st data (i + 2) (output ++ [IAC]) acts
      else if cmd = SB ∧ i + 2 < data.length then
        if data.getD (i + 2) 0 = COM_PORT_OPTION then
          match find_iac_se data (i + 3) with
          | some r =>
            let se_idx := i + 3 + r
            let subcmd := if i + 3 < se_idx then data.getD (i + 3) 0 else 0
            let subdata := (data.take se_idx).drop (i + 4)
            let res := handle_com_port_option st subcmd subdata
            handle_rfc2217_loop res.1 data (se_idx + 2) output (acts ++ res.2)
          | none => handle_rfc2217_loop st data (i + 2) output acts
        else handle_rfc2217_loop st data (i + 2) output acts
      else if cmd = DO ∨ cmd = DONT ∨ cmd = WILL ∨ cmd = WONT then
        if i + 2 < data.length then
          let opt := data.getD (i + 2) 0
          let newActs :=
            if cmd = DO ∧ opt = COM_PORT_OPTION then [Action.sendTelnet WILL COM_PORT_OPTION]
            else if cmd = WILL ∧ opt = COM_PORT_OPTION then [Action.sendTelnet DO COM_PORT_OPTION]
            else []
          handle_rfc2217_loop st data (i + 3) output (acts ++ newActs)
        else handle_rfc2217_loop st data (i + 2) output acts
      else handle_rfc2217_loop st data (i + 2) output acts
    else
      handle_rfc2217_loop st data (i + 1) (output ++ [b]) acts
  else (st, output, acts)
termination_by data.length - i
decreasing_by all_goals omega

/-- `RFC2217Proxy.handle_rfc2217(data)`: scans one received buffer and
returns the new serial state, the application-data bytes (the function's
Python return value, which the caller writes to the serial port), and the
side effects performed during the scan.  The method keeps no state between
calls: every invocation starts at `i = 0` with empty accumulators. -/
def handle_rfc2217 (st : SerialState) (data : List Nat) :
    SerialState × List Nat × List Action :=
  handle_rfc2217_loop st data 0 [] []

/-- Serial state with the proxy's defaults (`baudrate=115200` and pyserial's
default 8N1 framing with DTR/RTS deasserted). -/
def st0 : SerialState :=
  { baudrate := 115200, bytesize := 8, parity := 'N', stopbits := .one,
    dtr := false, rts := false }

end SerialProxy

namespace PortalV2

/-- The per-slot state of `portal_v2.py` (`class SlotState`), without the
`threading.Lock` (every transition of a slot runs under its lock, so the
supervisor operations are modelled as atomic state transformers). -/
structure SlotState where
  label : String
  slot_key : String
  tcp_port : Nat
  running : Bool
  pid : Option Nat
  devnode : Option String
  last_gen : Nat
  last_error : Option String
  deriving DecidableEq

/-- Result of `Portal._start_proxy`: either the spawned child's pid
(`return True, str(proc.pid)`) or an error message (`return False, msg`). -/
inductive StartOutcome
  | ok (pid : Nat)
  | fail (msg : String)
  deriving DecidableEq

/-- The environment probes consulted by `Portal.start`, passed in as oracle
values: `alive` is `_is_process_alive(slot.pid)`, `listening` is
`_is_port_listening(slot.tcp_port)`, and `outcome` is the result of
`_start_proxy(slot, devnode)`. -/
structure StartEnv where
  alive : Bool
  listening : Bool
  outcome : StartOutcome
  deriving DecidableEq

/-- The JSON dictionary returned by `Portal.start` / `Portal.stop`, with
`Option` for keys that are present only on some paths. -/
structure ApiResult where
  success : Bool
  running : Option Bool
  restarted : Option Bool
  error : Option String
  deriving DecidableEq

/-- The body of `Portal.start` (lines 215-258 of `portal_v2.py`) once the
slot has been looked up and its lock acquired: increment `last_gen`; return
`restarted := false` when already healthy on the same devnode; otherwise
stop any existing child and commit the `_start_proxy` outcome. -/
def startSlot (s : SlotState) (devnode : String) (env : StartEnv) :
    SlotState × ApiResult :=
  let s1 := { s with last_gen := s.last_gen + 1 }
  if s1.running = true ∧ s1.pid.isSome = true ∧ s1.devnode = some devnode ∧
      env.alive = true ∧ env.listening = true then
    (s1, { success := true, running := some true, restarted := some false, error := none })
  else
    let s2 := if s1.running = true ∧ s1.pid.isSome = true then
      { s1 with running := false, pid := none } else s1
    match env.outcome with
    | .ok pid =>
      let s3 := { s2 with running := true, pid := some pid }
      ({ s3 with devnode := some devnode, last_error := none },
       { success := true, running := some true, restarted := some true, error := none })
    | .fail msg =>
      ({ s2 with running := false, pid := none, devnode := none, last_error := some msg },
       { success := false, running := none, restarted := none, error := some msg })

/-- The body of `Portal.stop` (lines 260-286 of `portal_v2.py`) once the slot
has been looked up and its lock acquired. -/
def stopSlot (s : SlotState) : SlotState × ApiResult :=
  let s1 := { s with last_gen := s.last_gen + 1 }
  if s1.running = true ∧ s1.pid.isSome = true then
    ({ s1 with running := false, pid := none, devnode := none, last_error := none },
     { success := true, running := some false, restarted := none, error := none })
  else
    (s1, { success := true, running := some false, restarted := none, error := none })

/-- The health reap performed on each slot by `Portal.get_devices`
(lines 293-297 of `portal_v2.py`): `alive` is `_is_process_alive(slot.pid)`. -/
def reapSlot (s : SlotState) (alive : Bool) : SlotState :=
  if s.running = true ∧ s.pid.isSome = true ∧ alive = false then
    { s with running := false, pid := none, last_error := some "Process died" }
  else s

/-- The portal's slot registry `self.slots : Dict[str, SlotState]`, keyed by
`slot_key`, as an association list. -/
abbrev Portal := List (String × SlotState)

/-- Dictionary lookup `self.slots[slot_key]` guarded by
`slot_key in self.slots`. -/
def lookupSlot (p : Portal) (key : String) : Option SlotState :=
  match p with
  | [] => none
  | (k, s) :: tl => if k = key then some s else lookupSlot tl key

/-- Replace the state stored under `key` (in the source, methods mutate the
shared `SlotState` object found in the registry). -/
def updateSlot (p : Portal) (key : String) (s : SlotState) : Portal :=
  match p with
  | [] => []
  | (k, s0) :: tl =>
    if k = key then (k, s) :: updateSlot tl key s else (k, s0) :: updateSlot tl key s

/-- `Portal.start(slot_key, devnode)`, including the unknown-slot guard. -/
def start (p : Portal) (key devnode : String) (env : StartEnv) : Portal × ApiResult :=
  match lookupSlot p key with
  | none =>
    (p, { success := false, running := none, restarted := none, error := some "Unknown slot_key" })
  | some s =>
    let res := startSlot s devnode env
    (updateSlot p key res.1, res.2)

/-- `Portal.stop(slot_key)`, including the unknown-slot guard. -/
def stop (p : Portal) (key : String) : Portal × ApiResult :=
  match lookupSlot p key with
  | none =>
    (p, { success := false, running := none, restarted := none, error := some "Unknown slot_key" })
  | some s =>
    let res := stopSlot s
    (updateSlot p key res.1, res.2)

/-- One supervisor invocation: a `POST /api/start` or `POST /api/stop`
(equivalently a hotplug `add` / `remove`, which `do_POST` dispatches to the
same `portal.start` / `portal.stop`). -/
inductive Op
  | opStart (key devnode : String) (env : StartEnv)
  | opStop (key : String)

/-- The slot key an invocation addresses. -/
def Op.key : Op → String
  | .opStart k _ _ => k
  | .opStop k => k

/-- Apply one invocation to the portal state. -/
def applyOp (p : Portal) : Op → Portal
  | .opStart k d env => (start p k d env).1
  | .opStop k => (stop p k).1

/-- Apply a sequence of invocations in order. -/
def applyOps (p : Portal) (ops : List Op) : Portal :=
  ops.foldl applyOp p

/-- The slot invariant stated by the spec:
`running ⇒ pid ≠ ∅ ∧ devnode ≠ ∅` and `¬running ⇒ pid = ∅ ∧ devnode = ∅`. -/
def slotInvFull (s : SlotState) : Prop :=
  (s.running = true → s.pid ≠ none ∧ s.devnode ≠ none) ∧
  (s.running = false → s.pid = none ∧ s.devnode = none)

/-- The weakening of `slotInvFull` that the code actually maintains across
the health reap: the `devnode = ∅` half of the second conjunct is dropped. -/
def slotInvWeak (s : SlotState) : Prop :=
  (s.running = true → s.pid ≠ none ∧ s.devnode ≠ none) ∧
  (s.running = false → s.pid = none)

/-- A configured, idle sample slot. -/
def sampleSlot : SlotState :=
  { label := "A", slot_key := "usb-1", tcp_port := 4001, running := false,
    pid := none, devnode := none, last_gen := 0, last_error := none }

/-- A sample slot with a running child bound to a devnode. -/
def runningSlot : SlotState :=
  { label := "A", slot_key := "usb-1", tcp_port := 4001, running := true,
    pid := some 42, devnode := some "/dev/ttyUSB0", last_gen := 5, last_error := none }

/-- A one-slot sample registry. -/
def samplePortal : Portal := [("usb-1", sampleSlot)]

/-- An environment in which the existing child is healthy and a fresh spawn
would succeed with pid 42. -/
def envOk : StartEnv := { alive := true, listening := true, outcome := .ok 42 }

/-- The slot state committed by `Portal.start` after a successful spawn. -/
def startedSlot (s : SlotState) (d : String) (pid : Nat) : SlotState :=
  { s with running := true, pid := some pid, devnode := some d, last_gen := s.last_gen + 1, last_error := none }

theorem lookup_update_self (p : Portal) (key : String) (s s0 : SlotState)
    (h : lookupSlot p key = some s0) :
    lookupSlot (updateSlot p key s) key = some s := by
  induction p with
  | nil => simp [lookupSlot] at h
  | cons kv tl ih =>
    obtain ⟨k, s1⟩ := kv
    by_cases hk : k = key
    · simp [lookupSlot, updateSlot, hk]
    · simp only [lookupSlot, if_neg hk] at h
      simp only [updateSlot, if_neg hk, lookupSlot, if_neg hk]
      exact ih h

theorem lookup_update_other (p : Portal) (key key' : String) (s : SlotState)
    (hne : key' ≠ key) :
    lookupSlot (updateSlot p key' s) key = lookupSlot p key := by
  induction p with
  | nil => simp [lookupSlot, updateSlot]
  | cons kv tl ih =>
    obtain ⟨k, s1⟩ := kv
    by_cases hk : k = key'
    · have hk2 : ¬(k = key) := by
        rw [hk]; exact hne
      simp only [updateSlot, if_pos hk, lookupSlot, if_neg hk2]
      exact ih
    · simp only [updateSlot, if_neg hk, lookupSlot]
      by_cases hk2 : k = key
      · simp [if_pos hk2]
      · simp only [if_neg hk2]
        exact ih

theorem startSlot_last_gen (s : SlotState) (d : String) (env : StartEnv) :
    (startSlot s d env).1.last_gen = s.last_gen + 1 := by
  cases env with
  | mk alive listening outcome =>
    cases outcome <;> simp only [startSlot] <;> split_ifs <;> rfl

theorem stopSlot_last_gen (s : SlotState) :
    (stopSlot s).1.last_gen = s.last_gen + 1 := by
  simp only [stopSlot]
  split_ifs <;> rfl

theorem applyOp_lookup (p : Portal) (k : String) (s : SlotState) (o : Op)
    (h : lookupSlot p k = some s) :
    ∃ s', lookupSlot (applyOp p o) k = some s' ∧
      s'.last_gen = s.last_gen + (if o.key = k then 1 else 0) := by
  cases o with
  | opStart k' d env =>
    by_cases hk : k' = k
    · subst hk
      refine ⟨(startSlot s d env).1, ?_, ?_⟩
      · simp only [applyOp, start, h]
        exact lookup_update_self p k' _ s h
      · simp [Op.key, startSlot_last_gen]
    · refine ⟨s, ?_, by simp [Op.key, hk]⟩
      simp only [applyOp, start]
      cases hl : lookupSlot p k' with
      | none => simpa using h
      | some s1 => simpa [lookup_update_other p k k' _ hk] using h
  | opStop k' =>
    by_cases hk : k' = k
    · subst hk
      refine ⟨(stopSlot s).1, ?_, ?_⟩
      · simp only [applyOp, stop, h]
        exact lookup_update_self p k' _ s h
      · simp [Op.key, stopSlot_last_gen]
    · refine ⟨s, ?_, by simp [Op.key, hk]⟩
      simp only [applyOp, stop]
      cases hl : lookupSlot p k' with
      | none => simpa using h
      | some s1 => simpa [lookup_update_other p k k' _ hk] using h

theorem applyOps_last_gen (ops : List Op) :
    ∀ (p : Portal) (k : String) (s : SlotState), lookupSlot p k = some s →
    ∃ s', lookupSlot (applyOps p ops) k = some s' ∧
      s'.last_gen = s.last_gen + ops.countP (fun o => o.key == k) := by
  induction ops with
  | nil =>
    intro p k s h
    exact ⟨s, by simpa [applyOps] using h, by simp⟩
  | cons o tl ih =>
    intro p k s h
    obtain ⟨s1, h1, hg1⟩ := applyOp_lookup p k s o h
    obtain ⟨s', h', hg'⟩ := ih (applyOp p o) k s1 h1
    refine ⟨s', by simpa [applyOps] using h', ?_⟩
    rw [hg', hg1, List.countP_cons]
    by_cases hk : o.key = k <;> simp [hk] <;> omega

/-- Claim C2 counterexample: on a running slot whose child has died, the
health reap of `get_devices` clears `running` and `pid` and sets
`last_error = "Process died"` but leaves `devnode` bound, so — contrary to
the claim — `devnode` is not cleared and the invariant
`¬running ⇒ pid = ∅ ∧ devnode = ∅` does not survive the reap. -/
theorem c2_reap_keeps_devnode :
    reapSlot runningSlot false =
      { runningSlot with running := false, pid := none, last_error := some "Process died" } ∧
    (reapSlot runningSlot false).running = false ∧
    (reapSlot runningSlot false).devnode = some "/dev/ttyUSB0" ∧
    ¬ slotInvFull (reapSlot runningSlot false) := by
  refine ⟨rfl, rfl, rfl, ?_⟩
  intro hinv
  have hd := (hinv.2 rfl).2
  simp [reapSlot, runningSlot] at hd

/-- Claim C2 (amended): `start` and `stop` preserve the full slot invariant
(`running ⇒ pid ≠ ∅ ∧ devnode ≠ ∅` and `¬running ⇒ pid = ∅ ∧ devnode = ∅`);
the health reap of `get_devices` preserves only the weakening that drops
`devnode = ∅`, because it clears `running` and `pid` and sets
`last_error = "Process died"` while leaving `devnode` unchanged. -/
theorem c2_supervisor_invariants (s : SlotState) (d : String) (env : StartEnv)
    (alive : Bool) (h : slotInvFull s) :
    slotInvFull (startSlot s d env).1 ∧
    slotInvFull (stopSlot s).1 ∧
    slotInvWeak (reapSlot s alive) ∧
    (s.running = true → s.pid.isSome = true → alive = false →
      reapSlot s alive =
        { s with running := false, pid := none, last_error := some "Process died" }) := by
  obtain ⟨h1, h2⟩ := h
  refine ⟨?_, ?_, ?_, ?_⟩
  · cases env with
    | mk a l outcome =>
      cases outcome <;> simp only [startSlot] <;> split_ifs <;>
        constructor <;> intro hr <;> simp_all [slotInvFull]
  · simp only [stopSlot]
    split_ifs with hc
    · constructor <;> intro hr <;> simp_all
    · exact ⟨fun hr => h1 hr, fun hr => h2 hr⟩
  · simp only [reapSlot]
    split_ifs with hc
    · constructor <;> intro hr <;> simp_all
    · exact ⟨h1, fun hr => (h2 hr).1⟩
  · intro hr hp ha
    simp [reapSlot, hr, hp, ha]

/-- Claim C2 witness: the amended invariant theorem instantiated at the
sample idle slot with a dead-child environment. -/
theorem c2_supervisor_invariants_witness :
    slotInvFull (startSlot sampleSlot "/dev/ttyUSB0" envOk).1 ∧
    slotInvFull (stopSlot sampleSlot).1 ∧
    slotInvWeak (reapSlot sampleSlot false) ∧
    (sampleSlot.running = true → sampleSlot.pid.isSome = true → false = false →
      reapSlot sampleSlot false =
        { sampleSlot with running := false, pid := none, last_error := some "Process died" }) :=
  c2_supervisor_invariants sampleSlot "/dev/ttyUSB0" envOk false
    (by constructor <;> intro hr <;> simp_all [sampleSlot])

/-- Claim C3: every `start`/`stop` invocation on a configured slot — no
matter whether it succeeds, fails, or is a no-op — increments that slot's
`last_gen` by exactly one, so after any invocation sequence the slot's
`last_gen` has grown by exactly the number of invocations addressing it
(hence the externally observed values are strictly increasing across those
invocations), and an invocation whose `slot_key` is unknown leaves the
whole registry unchanged. -/
theorem c3_generation_monotonic (p : Portal) (k : String) (s : SlotState) (ops : List Op)
    (h : lookupSlot p k = some s) :
    (∃ s', lookupSlot (applyOps p ops) k = some s' ∧
      s'.last_gen = s.last_gen + ops.countP (fun o => o.key == k)) ∧
    (∀ o : Op, lookupSlot p o.key = none → applyOp p o = p) := by
  refine ⟨applyOps_last_gen ops p k s h, ?_⟩
  intro o ho
  cases o with
  | opStart k' d env =>
    simp only [Op.key] at ho
    simp [applyOp, start, ho]
  | opStop k' =>
    simp only [Op.key] at ho
    simp [applyOp, stop, ho]

/-- Claim C3 witness: a concrete three-invocation trace (successful start,
stop, and a stop addressed to an unconfigured key) on the sample registry. -/
theorem c3_generation_monotonic_witness :
    (∃ s', lookupSlot (applyOps samplePortal
        [Op.opStart "usb-1" "/dev/ttyUSB0" envOk, Op.opStop "usb-1", Op.opStop "bogus"])
        "usb-1" = some s' ∧
      s'.last_gen = sampleSlot.last_gen +
        List.countP (fun o => o.key == "usb-1")
          [Op.opStart "usb-1" "/dev/ttyUSB0" envOk, Op.opStop "usb-1", Op.opStop "bogus"]) ∧
    (∀ o : Op, lookupSlot samplePortal o.key = none →
      applyOp samplePortal o = samplePortal) :=
  c3_generation_monotonic samplePortal "usb-1" sampleSlot
    [Op.opStart "usb-1" "/dev/ttyUSB0" envOk, Op.opStop "usb-1", Op.opStop "bogus"] rfl

/-- Claim C4: after a `start(k, d)` that spawned a child
(`restarted = some true`), an immediately repeated `start(k, d)` in an
environment where the child is alive and the TCP port listens returns
success with `restarted = some false`, changes nothing in the slot except a
further `last_gen` increment, and both calls increment `last_gen`. -/
theorem c4_start_idempotent (s : SlotState) (d : String) (env1 env2 : StartEnv)
    (h1 : (startSlot s d env1).2.restarted = some true)
    (h2 : env2.alive = true) (h3 : env2.listening = true) :
    (startSlot (startSlot s d env1).1 d env2).2.success = true ∧
    (startSlot (startSlot s d env1).1 d env2).2.restarted = some false ∧
    (startSlot (startSlot s d env1).1 d env2).1 =
      { (startSlot s d env1).1 with last_gen := (startSlot s d env1).1.last_gen + 1 } ∧
    (startSlot s d env1).1.last_gen = s.last_gen + 1 := by
  have hfirst : ∃ pid, (startSlot s d env1).1 = startedSlot s d pid := by
    cases env1 with
    | mk a l outcome =>
      cases outcome with
      | ok pid =>
        refine ⟨pid, ?_⟩
        simp only [startSlot, startedSlot] at h1 ⊢
        split_ifs at h1 ⊢ <;> simp_all
      | fail msg =>
        simp only [startSlot] at h1
        split_ifs at h1 <;> simp_all
  obtain ⟨pid, hs1⟩ := hfirst
  rw [hs1]
  cases env2 with
  | mk a2 l2 out2 =>
    simp only at h2 h3
    subst h2
    subst h3
    simp [startSlot, startedSlot]

/-- Claim C4 witness: two consecutive successful starts of the sample slot
in a healthy environment. -/
theorem c4_start_idempotent_witness :
    (startSlot (startSlot sampleSlot "/dev/ttyUSB0" envOk).1 "/dev/ttyUSB0" envOk).2.success
      = true ∧
    (startSlot (startSlot sampleSlot "/dev/ttyUSB0" envOk).1 "/dev/ttyUSB0" envOk).2.restarted
      = some false ∧
    (startSlot (startSlot sampleSlot "/dev/ttyUSB0" envOk).1 "/dev/ttyUSB0" envOk).1 =
      { (startSlot sampleSlot "/dev/ttyUSB0" envOk).1 with
        last_gen := (startSlot sampleSlot "/dev/ttyUSB0" envOk).1.last_gen + 1 } ∧
    (startSlot sampleSlot "/dev/ttyUSB0" envOk).1.last_gen = sampleSlot.last_gen + 1 :=
  c4_start_idempotent sampleSlot "/dev/ttyUSB0" envOk envOk (by decide) rfl rfl

end PortalV2

namespace SerialProxy

theorem getD_append_of_lt (l l2 : List Nat) (n : Nat) (h : n < l.length) :
    (l ++ l2).getD n 0 = l.getD n 0 := by
  rw [List.getD_eq_getElem _ _ (by simp; omega), List.getD_eq_getElem _ _ h]
  exact List.getElem_append_left ..

theorem getD_append_add (l l2 : List Nat) (k : Nat) :
    (l ++ l2).getD (l.length + k) 0 = l2.getD k 0 := by
  rcases Nat.lt_or_ge k l2.length with h | h
  · rw [List.getD_eq_getElem _ _ (by simp; omega), List.getD_eq_getElem _ _ h]
    rw [List.getElem_append_right] <;> simp
  · rw [List.getD_eq_default _ _ (by simp; omega), List.getD_eq_default _ _ h]

theorem getD_mem_of_lt (l : List Nat) (k : Nat) (h : k < l.length) : l.getD k 0 ∈ l := by
  rw [List.getD_eq_getElem _ _ h]
  exact List.getElem_mem h

theorem loop_step_data (st : SerialState) (data : List Nat) (i : Nat) (out : List Nat)
    (acts : List Action) (hi : i < data.length) (hb : data.getD i 0 ≠ 255) :
    handle_rfc2217_loop st data i out acts =
      handle_rfc2217_loop st data (i + 1) (out ++ [data.getD i 0]) acts := by
  conv_lhs => rw [handle_rfc2217_loop]
  rw [dif_pos hi]
  dsimp only
  rw [if_neg (fun hcon => hb (by simpa [IAC] using hcon.1))]

theorem loop_end (st : SerialState) (data : List Nat) (i : Nat) (out : List Nat)
    (acts : List Action) (hi : data.length ≤ i) :
    handle_rfc2217_loop st data i out acts = (st, out, acts) := by
  rw [handle_rfc2217_loop]
  rw [dif_neg (by omega)]

theorem loop_step_sb_unknown (st : SerialState) (data : List Nat) (i : Nat) (out : List Nat)
    (acts : List Action) (hi2 : i + 2 < data.length)
    (h0 : data.getD i 0 = 255) (h1 : data.getD (i + 1) 0 = 250)
    (h2 : data.getD (i + 2) 0 ≠ 44) :
    handle_rfc2217_loop st data i out acts = handle_rfc2217_loop st data (i + 2) out acts := by
  conv_lhs => rw [handle_rfc2217_loop]
  rw [dif_pos (by omega)]
  dsimp only
  rw [if_pos ⟨by rw [h0]; decide, by omega⟩]
  rw [if_neg (by rw [h1]; decide)]
  rw [if_pos ⟨by rw [h1]; decide, by omega⟩]
  rw [if_neg (show ¬(data.getD (i + 2) 0 = COM_PORT_OPTION) from h2)]

theorem loop_step_iac_se (st : SerialState) (data : List Nat) (i : Nat) (out : List Nat)
    (acts : List Action) (hi1 : i + 1 < data.length)
    (h0 : data.getD i 0 = 255) (hc : data.getD (i + 1) 0 = 240) :
    handle_rfc2217_loop st data i out acts = handle_rfc2217_loop st data (i + 2) out acts := by
  conv_lhs => rw [handle_rfc2217_loop]
  rw [dif_pos (by omega)]
  dsimp only
  rw [if_pos ⟨by rw [h0]; decide, hi1⟩]
  rw [if_neg (by rw [hc]; decide)]
  rw [if_neg (fun hcon => absurd hcon.1 (by rw [hc]; decide))]
  rw [if_neg (by rw [hc]; decide)]

theorem loop_scan_plain (data : List Nat) (n : Nat) :
    ∀ (i : Nat) (st : SerialState) (out : List Nat) (acts : List Action),
      i + n ≤ data.length →
      (∀ j, j < n → data.getD (i + j) 0 ≠ 255) →
      handle_rfc2217_loop st data i out acts =
        handle_rfc2217_loop st data (i + n) (out ++ (data.take (i + n)).drop i) acts := by
  induction n with
  | zero =>
    intro i st out acts _ _
    have hnil : (data.take i).drop i = [] :=
      List.drop_eq_nil_of_le (by simp)
    simp [hnil]
  | succ n ih =>
    intro i st out acts hle hb
    have hi : i < data.length := by omega
    have hbi : data.getD i 0 ≠ 255 := by simpa using hb 0 (by omega)
    rw [loop_step_data st data i out acts hi hbi]
    have hrec := ih (i + 1) st (out ++ [data.getD i 0]) acts (by omega) (fun j hj => by
      have hb2 := hb (j + 1) (by omega)
      have harith : i + (j + 1) = i + 1 + j := by omega
      rwa [harith] at hb2)
    rw [hrec]
    have hm : i + 1 + n = i + (n + 1) := by omega
    rw [hm]
    have hdrop : (data.take (i + (n + 1))).drop i =
        data.getD i 0 :: (data.take (i + (n + 1))).drop (i + 1) := by
      rw [List.drop_eq_getElem_cons (by simp [List.length_take]; omega)]
      congr 1
      rw [List.getElem_take, List.getD_eq_getElem _ _ hi]
    rw [List.append_assoc]
    congr 1
    rw [hdrop]
    rfl

end SerialProxy

namespace SerialProxy

/-- Claim C1 (code-bug evidence): `handle_rfc2217` keeps no state between
calls, so splitting the valid SET_BAUDRATE subnegotiation
`FF FA 2C 01 00 00 E1 00 FF F0` at byte offset 5 changes the result.  Fed
whole, the frame yields no application data, one baudrate log event and one
reply frame; fed as two halves, the two calls yield the application-data
bytes `2C 01 00` and `00 E1 00` (the subnegotiation's bytes leak into the
serial data stream) and no event or reply at all — the partial frame is not
retained and resumed. -/
theorem c1_split_stream_divergence :
    handle_rfc2217 st0 [255, 250, 44, 1, 0, 0, 225, 0, 255, 240] =
      ({ st0 with baudrate := 57600 }, [],
       [.logEvent (.baudrateChanged 57600), .sendComPortOption 101 [0, 0, 225, 0]]) ∧
    handle_rfc2217 st0 [255, 250, 44, 1, 0] = (st0, [44, 1, 0], []) ∧
    handle_rfc2217 st0 [0, 225, 0, 255, 240] = (st0, [0, 225, 0], []) := by
  refine ⟨?_, ?_, ?_⟩ <;>
    simp [handle_rfc2217, handle_rfc2217_loop, find_iac_se, handle_com_port_option,
      IAC, SB, SE, COM_PORT_OPTION, DO, DONT, WILL, WONT, SET_BAUDRATE, SET_DATASIZE,
      SET_PARITY, SET_STOPSIZE, SET_CONTROL, SET_LINESTATE_MASK, SET_MODEMSTATE_MASK,
      fromBytesBE, toBytes4, st0]

/-- Claim C5 counterexample: the payload `00 00 E1 00` of the spec's example
decodes (big-endian) to 57600, not 921600, so the example frame sets the
baud to 57600 and the code's reply carries `00 00 E1 00`, not the claimed
`00 0E 10 00`. -/
theorem c5_baud_example_mismatch :
    fromBytesBE [0, 0, 225, 0] = 57600 ∧ (57600 : Nat) ≠ 921600 ∧
    (handle_rfc2217 st0 [255, 250, 44, 1, 0, 0, 225, 0, 255, 240]).1.baudrate = 57600 ∧
    (handle_rfc2217 st0 [255, 250, 44, 1, 0, 0, 225, 0, 255, 240]).2.2 ≠
      [.logEvent (.baudrateChanged 921600), .sendComPortOption 101 [0, 14, 16, 0]] := by
  have heval : handle_rfc2217 st0 [255, 250, 44, 1, 0, 0, 225, 0, 255, 240] =
      ({ st0 with baudrate := 57600 }, [],
       [.logEvent (.baudrateChanged 57600), .sendComPortOption 101 [0, 0, 225, 0]]) := by
    simp [handle_rfc2217, handle_rfc2217_loop, find_iac_se, handle_com_port_option,
      IAC, SB, SE, COM_PORT_OPTION, DO, DONT, WILL, WONT, SET_BAUDRATE, SET_DATASIZE,
      SET_PARITY, SET_STOPSIZE, SET_CONTROL, SET_LINESTATE_MASK, SET_MODEMSTATE_MASK,
      fromBytesBE, toBytes4, st0]
  refine ⟨by decide, by decide, by rw [heval], by rw [heval]; decide⟩

/-- Claim C5 (amended): a SET_BAUDRATE subnegotiation whose payload carries
at least 4 bytes and whose big-endian value `v` satisfies `0 < v < 2 ^ 32`
sets the serial baudrate to `v` and replies with resp_cmd 101 carrying the
applied baud as 4 big-endian bytes; concretely, the frame
`FF FA 2C 01 00 00 E1 00 FF F0` sets the baud to 57600 (not 921600) and
produces the reply payload `00 00 E1 00`. -/
theorem c5_set_baudrate (st : SerialState) (data : List Nat)
    (h4 : 4 ≤ data.length) (hpos : 0 < fromBytesBE (data.take 4))
    (hlt : fromBytesBE (data.take 4) < 2 ^ 32) :
    handle_com_port_option st SET_BAUDRATE data =
      ({ st with baudrate := fromBytesBE (data.take 4) },
       [.logEvent (.baudrateChanged (fromBytesBE (data.take 4))),
        .sendComPortOption 101 (toBytes4 (fromBytesBE (data.take 4)))]) ∧
    handle_rfc2217 st0 [255, 250, 44, 1, 0, 0, 225, 0, 255, 240] =
      ({ st0 with baudrate := 57600 }, [],
       [.logEvent (.baudrateChanged 57600), .sendComPortOption 101 [0, 0, 225, 0]]) := by
  constructor
  · simp [handle_com_port_option, SET_BAUDRATE, h4, hpos, hlt]
    omega
  · simp [handle_rfc2217, handle_rfc2217_loop, find_iac_se, handle_com_port_option,
      IAC, SB, SE, COM_PORT_OPTION, DO, DONT, WILL, WONT, SET_BAUDRATE, SET_DATASIZE,
      SET_PARITY, SET_STOPSIZE, SET_CONTROL, SET_LINESTATE_MASK, SET_MODEMSTATE_MASK,
      fromBytesBE, toBytes4, st0]

/-- Claim C5 witness: the amended theorem applied to the payload that
actually encodes 921600 baud. -/
theorem c5_set_baudrate_witness :
    handle_com_port_option st0 SET_BAUDRATE [0, 14, 16, 0] =
      ({ st0 with baudrate := 921600 },
       [.logEvent (.baudrateChanged 921600), .sendComPortOption 101 [0, 14, 16, 0]]) := by
  have h := (c5_set_baudrate st0 [0, 14, 16, 0] (by decide) (by decide) (by decide)).1
  exact h.trans (by decide)

/-- Claim C6 counterexample: the subnegotiation `IAC SB 01 41 IAC SE` for
the unknown Telnet option 1 is not consumed up to `IAC SE`: only the
`IAC SB` pair is skipped, so the option byte `01` and payload byte `41`
appear in the application-data output. -/
theorem c6_unknown_subneg_leaks :
    handle_rfc2217 st0 [255, 250, 1, 65, 255, 240] = (st0, [1, 65], []) ∧
    (65 : Nat) ∈ (handle_rfc2217 st0 [255, 250, 1, 65, 255, 240]).2.1 := by
  have heval : handle_rfc2217 st0 [255, 250, 1, 65, 255, 240] = (st0, [1, 65], []) := by
    simp [handle_rfc2217, handle_rfc2217_loop, find_iac_se, handle_com_port_option,
      IAC, SB, SE, COM_PORT_OPTION, DO, DONT, WILL, WONT, SET_BAUDRATE, SET_DATASIZE,
      SET_PARITY, SET_STOPSIZE, SET_CONTROL, SET_LINESTATE_MASK, SET_MODEMSTATE_MASK,
      fromBytesBE, toBytes4, st0]
  exact ⟨heval, by rw [heval]; decide⟩

/-- Claim C6 (amended): for `IAC SB x` with `x ≠ COM_PORT_OPTION`, the codec
consumes only the two-byte `IAC SB` prefix; the option byte `x` and the
payload bytes (here free of `0xFF`) pass through verbatim into the
application-data output, the terminating `IAC SE` is consumed as an unknown
two-byte command, and no control event or reply is produced. -/
theorem c6_unknown_subneg_passthrough (st : SerialState) (x : Nat) (payload : List Nat)
    (hx44 : x ≠ 44) (hx255 : x ≠ 255) (hp : ∀ b ∈ payload, b ≠ 255) :
    handle_rfc2217 st ([255, 250, x] ++ payload ++ [255, 240]) = (st, x :: payload, []) := by
  have hlen : ([255, 250, x] ++ payload ++ [255, 240]).length = payload.length + 5 := by
    simp only [List.length_append, List.length_cons, List.length_nil]
    omega
  unfold handle_rfc2217
  rw [loop_step_sb_unknown st ([255, 250, x] ++ payload ++ [255, 240]) 0 [] []
    (by rw [hlen]; omega) (by rfl) (by rfl) (by
      have hx : ([255, 250, x] ++ payload ++ [255, 240]).getD (0 + 2) 0 = x := by rfl
      rw [hx]
      exact hx44)]
  rw [loop_scan_plain ([255, 250, x] ++ payload ++ [255, 240]) (payload.length + 1) 2 st [] []
    (by rw [hlen]; omega) ?hbytes]
  case hbytes =>
    intro j hj
    cases j with
    | zero => exact hx255
    | succ k =>
      have hk : k < payload.length := by omega
      have e1 : 2 + (k + 1) = ([255, 250, x] : List Nat).length + k := by
        simp only [List.length_cons, List.length_nil]
        omega
      rw [e1]
      rw [getD_append_of_lt ([255, 250, x] ++ payload) [255, 240] _ (by
        simp only [List.length_append, List.length_cons, List.length_nil]
        omega)]
      rw [getD_append_add [255, 250, x] payload k]
      exact hp _ (getD_mem_of_lt payload k hk)
  have hslice : [] ++ (([255, 250, x] ++ payload ++ [255, 240]).take
      (2 + (payload.length + 1))).drop 2 = x :: payload := by
    rw [List.nil_append]
    rw [@List.take_left' Nat ([255, 250, x] ++ payload) [255, 240] (2 + (payload.length + 1)) (by
      simp only [List.length_append, List.length_cons, List.length_nil]
      omega)]
    simp
  rw [hslice]
  rw [loop_step_iac_se st ([255, 250, x] ++ payload ++ [255, 240]) (2 + (payload.length + 1))
    (x :: payload) [] (by rw [hlen]; omega) ?hiac ?hse]
  case hiac =>
    have e2 : 2 + (payload.length + 1) = ([255, 250, x] ++ payload).length + 0 := by
      simp only [List.length_append, List.length_cons, List.length_nil]
      omega
    rw [e2, getD_append_add ([255, 250, x] ++ payload) [255, 240] 0]
    rfl
  case hse =>
    have e3 : 2 + (payload.length + 1) + 1 = ([255, 250, x] ++ payload).length + 1 := by
      simp only [List.length_append, List.length_cons, List.length_nil]
      omega
    rw [e3, getD_append_add ([255, 250, x] ++ payload) [255, 240] 1]
    rfl
  exact loop_end st ([255, 250, x] ++ payload ++ [255, 240]) (2 + (payload.length + 1) + 2)
    (x :: payload) [] (by rw [hlen]; omega)

/-- Claim C6 witness: the amended passthrough theorem at option 1 with
payload `42`. -/
theorem c6_unknown_subneg_passthrough_witness :
    handle_rfc2217 st0 ([255, 250, 1] ++ [66] ++ [255, 240]) = (st0, 1 :: [66], []) :=
  c6_unknown_subneg_passthrough st0 1 [66] (by decide) (by decide) (by decide)

/-- Claim C7 (code-bug evidence): a SET_BAUDRATE request for 255 baud makes
the proxy reply with the payload `00 00 00 FF`; `_send_com_port_option`
frames it as `IAC SB 44 101 <payload> IAC SE` without escape-doubling the
`0xFF` payload byte, so the wire bytes differ from the RFC-mandated escaped
frame. -/
theorem c7_reply_not_escaped :
    handle_com_port_option st0 SET_BAUDRATE [0, 0, 0, 255] =
      ({ st0 with baudrate := 255 },
       [.logEvent (.baudrateChanged 255), .sendComPortOption 101 [0, 0, 0, 255]]) ∧
    send_com_port_option_msg 101 [0, 0, 0, 255] =
      [255, 250, 44, 101, 0, 0, 0, 255, 255, 240] ∧
    send_com_port_option_msg 101 [0, 0, 0, 255] ≠
      [255, 250, 44, 101, 0, 0, 0, 255, 255, 255, 240] := by
  refine ⟨by decide, by decide, by decide⟩

/-- Claim C8 counterexample: a SET_BAUDRATE subnegotiation with only two
payload bytes, and a SET_CONTROL subnegotiation with an empty payload, are
not silently skipped: each falls into the catch-all acknowledgement branch
and sends a reply frame. -/
theorem c8_malformed_gets_ack :
    handle_com_port_option st0 SET_BAUDRATE [0, 0] = (st0, [.sendComPortOption 101 [0, 0]]) ∧
    handle_com_port_option st0 SET_CONTROL [] = (st0, [.sendComPortOption 105 [0]]) ∧
    (handle_com_port_option st0 SET_BAUDRATE [0, 0]).2 ≠ [] := by
  refine ⟨by decide, by decide, by decide⟩

/-- Claim C8 (amended): a subnegotiation whose payload is shorter than its
declared subcmd requires changes no serial setting and attributes no byte to
the application-data stream, but instead of being logged and skipped it
falls through to the catch-all acknowledgement branch, which sends a reply
with resp_cmd = subcmd + 100 carrying the received payload (or `00` when the
payload is empty). -/
theorem c8_malformed_subneg (st : SerialState) (subcmd : Nat) (data : List Nat)
    (h : (subcmd = SET_BAUDRATE ∧ data.length < 4) ∨
      ((subcmd = SET_DATASIZE ∨ subcmd = SET_PARITY ∨ subcmd = SET_STOPSIZE ∨
        subcmd = SET_CONTROL) ∧ data = [])) :
    handle_com_port_option st subcmd data =
      (st, [.sendComPortOption (subcmd + 100) (if data.isEmpty then [0] else data)]) := by
  rcases h with ⟨h1, h2⟩ | ⟨h1, h2⟩
  · subst h1
    have h3 : ¬(4 ≤ data.length) := by omega
    simp [handle_com_port_option, SET_BAUDRATE, SET_DATASIZE, SET_PARITY, SET_STOPSIZE,
      SET_CONTROL, SET_LINESTATE_MASK, SET_MODEMSTATE_MASK, h3]
  · subst h2
    rcases h1 with h1 | h1 | h1 | h1 <;> subst h1 <;>
      simp [handle_com_port_option, SET_BAUDRATE, SET_DATASIZE, SET_PARITY, SET_STOPSIZE,
        SET_CONTROL, SET_LINESTATE_MASK, SET_MODEMSTATE_MASK]

/-- Claim C8 witness: the amended theorem at a SET_STOPSIZE subnegotiation
with an empty payload. -/
theorem c8_malformed_subneg_witness :
    handle_com_port_option st0 SET_STOPSIZE [] = (st0, [.sendComPortOption 104 [0]]) := by
  have h := c8_malformed_subneg st0 SET_STOPSIZE []
    (Or.inr ⟨Or.inr (Or.inr (Or.inl rfl)), rfl⟩)
  simpa [SET_STOPSIZE] using h

/-- Claim C9 (code-bug evidence): a SET_STOPSIZE subnegotiation with payload
byte 3 sets the stop bits to 1.5 as the claim states, but the echoed reply
byte is 1, not 3: the code looks the current setting up in the reverse map
after Python `int()` truncation, and `int(1.5) = 1` maps to reply byte 1, so
the `1.5 : 3` entry of the reverse map is unreachable. -/
theorem c9_stopsize_echo_truncated :
    handle_com_port_option st0 SET_STOPSIZE [3] =
      ({ st0 with stopbits := .onePointFive },
       [.logEvent (.stopbitsChanged .onePointFive), .sendComPortOption 104 [1]]) ∧
    ([1] : List Nat) ≠ [3] := by
  refine ⟨by decide, by decide⟩

/-- Claim C10: when the scan of `handle_rfc2217` reaches the final byte of
the buffer and that byte is an unpaired `IAC` (no command byte follows in
this read), the `0xFF` byte is appended to the application-data output —
and hence written to the serial port as data — rather than being held for
the next read. -/
theorem c10_trailing_iac (st : SerialState) (data : List Nat) (i : Nat) (output : List Nat)
    (acts : List Action) (h1 : i + 1 = data.length) (h2 : data.getD i 0 = 255) :
    handle_rfc2217_loop st data i output acts = (st, output ++ [255], acts) := by
  conv_lhs => rw [handle_rfc2217_loop]
  rw [dif_pos (by omega)]
  dsimp only
  rw [if_neg (fun hcon => absurd hcon.2 (by omega))]
  rw [h2]
  exact loop_end st data (i + 1) (output ++ [255]) acts (by omega)

/-- Claim C10 witness: a buffer consisting of the single byte `FF` passes it
through as application data. -/
theorem c10_trailing_iac_witness :
    handle_rfc2217 st0 [255] = (st0, [255], []) := by
  have h := c10_trailing_iac st0 [255] 0 [] [] rfl rfl
  simpa [handle_rfc2217] using h

end SerialProxy
